import Mathlib

/-!
Verification development for the parametrized symbolic reachability library
(biodivine-lib-std).  The Rust sources under src/ are shallowly embedded:

* BDDs over a fixed variable set of size n are modelled semantically as
  Boolean functions on valuations, faithful to the canonical (reduced
  ordered) representation of the external BDD library: two library BDDs
  are bit-for-bit identical iff they denote the same Boolean function.
* BddParams and its ParamSet operations are translated literally from
  src/src/boolean_network/bdd_params/mod.rs, including the inverted
  is_empty found there.
* The reachability engine of src/src/reachability.rs is embedded for the
  single-threaded case (parallelism = 1): the busy flag of the lock-free
  array cell is never held, so update always succeeds; the while loops
  become fuel-indexed recursion (the inner loop additionally terminates
  because its cursor strictly increases, so the fuel queue.length + 1
  passed to it is always sufficient).
-/

/-! ## Semantic model of the external BDD library -/

/-- A BDD over a variable set with n variables, modelled as the Boolean
function it denotes on valuations of those variables. -/
def Bdd (n : Nat) : Type := (Fin n → Bool) → Bool

namespace Bdd

def mk_true (n : Nat) : Bdd n := fun _ => true

def mk_false (n : Nat) : Bdd n := fun _ => false

/-- The single-variable BDD.  The library addresses variables by index; an
index outside the set never occurs in library use and denotes false here. -/
def mk_var (n : Nat) (v : Nat) : Bdd n :=
  fun val => if h : v < n then val ⟨v, h⟩ else false

def and {n : Nat} (a b : Bdd n) : Bdd n := fun val => a val && b val

def or {n : Nat} (a b : Bdd n) : Bdd n := fun val => a val || b val

def not {n : Nat} (a : Bdd n) : Bdd n := fun val => ! a val

def and_not {n : Nat} (a b : Bdd n) : Bdd n := fun val => a val && ! b val

def imp {n : Nat} (a b : Bdd n) : Bdd n := fun val => ! a val || b val

def iff {n : Nat} (a b : Bdd n) : Bdd n := fun val => a val == b val

def xor {n : Nat} (a b : Bdd n) : Bdd n := fun val => a val != b val

/-- Emptiness test of the library: a canonical BDD is the constant-false
BDD iff it denotes the unsatisfiable function. -/
def is_false {n : Nat} (a : Bdd n) : Bool :=
  decide (∀ val, a val = false)

/-- Mathematical containment of the denoted sets, used to state the
specified properties (this is the intended meaning of the ParamSet
subset operation, not the code's implementation of it). -/
def semSubset {n : Nat} (a b : Bdd n) : Bool :=
  decide (∀ val, a val = true → b val = true)

theorem semSubset_and_left {n : Nat} (a b : Bdd n) :
    semSubset (Bdd.and a b) b = true := by
  simp only [semSubset, decide_eq_true_iff]
  intro val h
  exact ((Bool.and_eq_true _ _).mp h).2

end Bdd

/-! ## BddParams: the ParamSet implementation of the repository
(src/src/boolean_network/bdd_params/mod.rs). -/

structure BddParams (n : Nat) where
  bdd : Bdd n

namespace BddParams

def union {n : Nat} (a b : BddParams n) : BddParams n :=
  { bdd := a.bdd.or b.bdd }

def intersect {n : Nat} (a b : BddParams n) : BddParams n :=
  { bdd := a.bdd.and b.bdd }

def minus {n : Nat} (a b : BddParams n) : BddParams n :=
  { bdd := a.bdd.and_not b.bdd }

/-- Translated literally from the source: is_empty returns the negation of
the is_false test of the underlying BDD. -/
def is_empty {n : Nat} (a : BddParams n) : Bool :=
  ! a.bdd.is_false

def is_subset_of {n : Nat} (a b : BddParams n) : Bool :=
  (a.minus b).is_empty

end BddParams

/-- The claimed and intended contract of is_empty, as a Boolean test:
true exactly on the constant-false BDD. -/
def intendedIsEmpty {n : Nat} (a : BddParams n) : Bool :=
  a.bdd.is_false

/-! ## The generic reachability engine (src/src/reachability.rs),
single-threaded instance. -/

/-- The ParamSet trait surface (src/src/parameters.rs), as a record of
operations so that the engine can be studied both under the assumption of
correct set operations (claim C1) and at the BddParams instance. -/
structure ParamSetOps (P : Type) where
  union : P → P → P
  intersect : P → P → P
  minus : P → P → P
  is_subset_of : P → P → Bool
  is_empty : P → Bool

/-- State of the single-threaded engine: the labels array, the bit queue
and the work_in_progress flag of the (only) worker. -/
structure EngineState (P : Type) where
  labels : List P
  queue : List Bool
  wip : Bool

/-- LockFreeArrayQueue.next: scan forward from the given index, clear and
return the first set bit, or none. -/
def queueNext (q : List Bool) (start : Nat) : Option (Nat × List Bool) :=
  match (List.range q.length).drop start |>.find? (fun i => q.getD i false) with
  | some i => some (i, q.set i false)
  | none => none

/-- LockFreeArrayQueue.set: set the bit of the given state. -/
def queueSet (q : List Bool) (i : Nat) : List Bool :=
  q.set i true

/-- One edge of the step iterator, processed exactly as in the body of the
for loop of the worker: re-read the source label, intersect with the edge
label, skip if the read-only subset check fires, otherwise run the update
closure (which always succeeds single-threaded) and enqueue the successor
exactly when the closure returned true. -/
def processEdge {P : Type} (ops : ParamSetOps P) (empty : P) (next : Nat)
    (st : EngineState P) (edge : Nat × P) : EngineState P :=
  let successor := edge.1
  let edge_params := edge.2
  let transfer_params := ops.intersect (st.labels.getD next empty) edge_params
  let current := st.labels.getD successor empty
  if ops.is_subset_of transfer_params current then st
  else
    let new_value := ops.union current transfer_params
    let is_new := ops.is_subset_of new_value current
    let labels := st.labels.set successor new_value
    if is_new then
      { labels := labels, queue := queueSet st.queue successor, wip := true }
    else
      { labels := labels, queue := st.queue, wip := st.wip }

/-- Process one dequeued state: iterate its step edges in order. -/
def processState {P : Type} (ops : ParamSetOps P) (empty : P)
    (step : Nat → List (Nat × P)) (st : EngineState P) (next : Nat) :
    EngineState P :=
  (step next).foldl (processEdge ops empty next) st

/-- The inner while-let loop of the worker.  The cursor strictly increases
with every iteration and queueNext only returns indices below the queue
length, so fuel queue.length + 1 makes this total without changing the
behaviour of the loop. -/
def innerLoop {P : Type} (ops : ParamSetOps P) (empty : P)
    (step : Nat → List (Nat × P)) : Nat → Nat → EngineState P → EngineState P
  | 0, _, st => st
  | fuel + 1, cursor, st =>
    match queueNext st.queue cursor with
    | none => st
    | some (next, q) =>
      innerLoop ops empty step fuel (next + 1)
        (processState ops empty step { st with queue := q } next)

/-- The outer while work_in_progress loop of the worker. -/
def outerLoop {P : Type} (ops : ParamSetOps P) (empty : P)
    (step : Nat → List (Nat × P)) : Nat → EngineState P → EngineState P
  | 0, st => st
  | fuel + 1, st =>
    if st.wip then
      outerLoop ops empty step fuel
        (innerLoop ops empty step (st.queue.length + 1) 0 { st with wip := false })
    else st

/-- Initialization of the engine: every state with a non-empty (per the
trait is_empty) initial label is written to the labels array and enqueued. -/
def initEngine {P : Type} (ops : ParamSetOps P) (empty : P) (initial : List P) :
    EngineState P :=
  { labels := initial.map (fun p => if ! ops.is_empty p then p else empty)
    queue := initial.map (fun p => ! ops.is_empty p)
    wip := true }

/-- The reachability engine for parallelism = 1: initialization followed by
one worker loop, then the labels array is read out. -/
def reachability1 {P : Type} (ops : ParamSetOps P) (empty : P)
    (step : Nat → List (Nat × P)) (initial : List P) (fuel : Nat) : List P :=
  (outerLoop ops empty step fuel (initEngine ops empty initial)).labels

/-- Correct set operations on the two-valued parameter lattice over a
one-point universe (true = the full set, false = the empty set), satisfying
the assumption of claim C1 that union, intersection, subset and emptiness
are implemented correctly. -/
def boolSetOps : ParamSetOps Bool :=
  { union := fun a b => a || b
    intersect := fun a b => a && b
    minus := fun a b => a && ! b
    is_subset_of := fun a b => ! a || b
    is_empty := fun a => ! a }

/-- The BddParams instance of the trait, operation for operation as in
src/src/boolean_network/bdd_params/mod.rs. -/
def bddParamsOps (n : Nat) : ParamSetOps (BddParams n) :=
  { union := BddParams.union
    intersect := BddParams.intersect
    minus := BddParams.minus
    is_subset_of := BddParams.is_subset_of
    is_empty := BddParams.is_empty }

/-- The three-state chain evolution operator 0 to 1 to 2 with always-enabled
edges, used as the failing input of claim C1. -/
def chainStep : Nat → List (Nat × Bool) :=
  fun i => if i = 0 then [(1, true)] else if i = 1 then [(2, true)] else []

/-- Helper: the is_false test of a difference BDD decides mathematical
containment of the denoted sets. -/
theorem is_false_and_not_eq_semSubset {n : Nat} (a b : Bdd n) :
    Bdd.is_false (a.and_not b) = Bdd.semSubset a b := by
  simp only [Bdd.is_false, Bdd.semSubset, Bdd.and_not]
  apply decide_eq_decide.mpr
  apply forall_congr'
  intro val
  cases a val <;> cases b val <;> simp

/-- Claim C3 (code bug): the BddParams emptiness test returns the negation
of the is_false test of its BDD.  Evaluated at the failing input, the
constant-false BddParams over one variable: the bdd satisfies is_false, yet
is_empty returns false; in general is_empty is the pointwise negation of the
claimed contract. -/
theorem bddParams_is_empty_inverted :
    BddParams.is_empty (⟨Bdd.mk_false 1⟩ : BddParams 1) = false
    ∧ Bdd.is_false (Bdd.mk_false 1) = true
    ∧ ∀ (n : Nat) (p : BddParams n), p.is_empty = ! intendedIsEmpty p := by
  refine ⟨by decide, by decide, fun n p => rfl⟩

/-- Claim C1 (code bug): on the three-state chain with all edges enabled and
only state 0 initially labelled, the single-threaded engine (with correct
set operations, as the claim assumes) returns the full label at states 0 and
1 but the empty label at state 2, for every sufficient fuel: the update
closure returns new_value.is_subset_of(value), which is false on a strict
enlargement, so state 1 is never enqueued and the two-step path 0 - 1 - 2
is never propagated.  The remaining conjuncts record that the path is
enabled and the initial label of state 0 is non-empty. -/
theorem reachability_chain_misses_two_step_state :
    (∀ fuel : Nat,
      reachability1 boolSetOps false chainStep [true, false, false] (fuel + 2) =
        [true, true, false])
    ∧ (1, true) ∈ chainStep 0 ∧ (2, true) ∈ chainStep 1
    ∧ boolSetOps.is_empty true = false := by
  refine ⟨fun fuel => rfl, by decide, by decide, by decide⟩

/-- Claim C2 (confirmed): at the BddParams instance of the engine, whenever
the guarded update of a successor cell is performed, the update closure
returns true exactly when the union strictly enlarged the cell, and the
engine enqueues the successor exactly when the closure returned true.  This
holds because is_subset_of of the repository BddParams is built on the
inverted is_empty and therefore itself computes the negation of containment,
so new_value.is_subset_of(value) denotes not (new contained in value). -/
theorem update_closure_changed_iff_enlarged (n : Nat)
    (st : EngineState (BddParams n)) (next : Nat) (edge : Nat × BddParams n)
    (current transfer new_value : BddParams n)
    (hc : current = st.labels.getD edge.1 ⟨Bdd.mk_false n⟩)
    (ht : transfer =
      (bddParamsOps n).intersect (st.labels.getD next ⟨Bdd.mk_false n⟩) edge.2)
    (hn : new_value = (bddParamsOps n).union current transfer)
    (hskip : (bddParamsOps n).is_subset_of transfer current = false) :
    ((bddParamsOps n).is_subset_of new_value current =
      ! Bdd.semSubset new_value.bdd current.bdd)
    ∧ Bdd.semSubset current.bdd new_value.bdd = true
    ∧ processEdge (bddParamsOps n) ⟨Bdd.mk_false n⟩ next st edge =
        (if (bddParamsOps n).is_subset_of new_value current then
          { labels := st.labels.set edge.1 new_value
            queue := queueSet st.queue edge.1, wip := true }
        else
          { labels := st.labels.set edge.1 new_value
            queue := st.queue, wip := st.wip }) := by
  refine ⟨?_, ?_, ?_⟩
  · show BddParams.is_empty _ = _
    simp only [BddParams.is_empty, BddParams.minus, is_false_and_not_eq_semSubset]
  · subst hn
    simp only [Bdd.semSubset, decide_eq_true_iff]
    intro val h
    show (current.bdd.or transfer.bdd) val = true
    simp [Bdd.or, h]
  · subst hc ht hn
    simp only [processEdge, hskip, Bool.false_eq_true, if_false]

/-! ## Encoder index arithmetic
(src/src/boolean_network/bdd_params/mod.rs, compute_table_index, and
src/src/boolean_network/async_graph/impl_boolean_async_graph.rs,
pack_table_index_into_state_id). -/

/-- StateId.is_set from src/src/graph.rs: bit test of the dense state. -/
def stateIsSet (s v : Nat) : Bool := Nat.testBit s v

/-- StateId.flip_bit from src/src/graph.rs. -/
def stateFlipBit (s v : Nat) : Nat := s ^^^ (1 <<< v)

/-- Loop body of compute_table_index: add the bit of the current argument
and shift left except after the last argument. -/
def computeTableIndexGo (state : Nat) : Nat → List Nat → Nat
  | acc, [] => acc
  | acc, a :: rest =>
    let acc := acc + (if stateIsSet state a then 1 else 0)
    match rest with
    | [] => acc
    | _ :: _ => computeTableIndexGo state (acc <<< 1) rest

/-- BddParameterEncoder.compute_table_index: which function table entry the
arguments correspond to in the given state. -/
def compute_table_index (state : Nat) (args : List Nat) : Nat :=
  computeTableIndexGo state 0 args

/-- Loop body of pack_table_index_into_state_id: bit i of the table index
is written to state bit regulators(i). -/
def packGo (table_index : Nat) : Nat → Nat → List Nat → Nat
  | state, _, [] => state
  | state, i, r :: rest =>
    packGo table_index
      (if (table_index >>> i) &&& 1 == 1 then state ||| (1 <<< r) else state)
      (i + 1) rest

/-- BooleanAsyncGraph.pack_table_index_into_state_id: state with the values
of the regulators set according to the table index, other bits zero. -/
def pack_table_index_into_state_id (table_index : Nat) (regulators : List Nat) :
    Nat :=
  packGo table_index 0 0 regulators

/-- The mask with exactly the bits listed in args set (the mask_of of the
specification). -/
def maskOf (args : List Nat) : Nat :=
  args.foldr (fun a m => m ||| (1 <<< a)) 0

/-- The numeric value of one state bit. -/
def bitVal (state a : Nat) : Nat := if stateIsSet state a then 1 else 0

theorem bitVal_le_one (state a : Nat) : bitVal state a ≤ 1 := by
  unfold bitVal; split <;> simp

theorem computeTableIndexGo_acc (state : Nat) :
    ∀ (args : List Nat) (acc : Nat),
      computeTableIndexGo state acc args =
        acc * 2 ^ (args.length - 1) + computeTableIndexGo state 0 args := by
  intro args
  induction args with
  | nil => intro acc; simp [computeTableIndexGo]
  | cons a rest ih =>
    intro acc
    match rest with
    | [] => simp [computeTableIndexGo, bitVal]
    | b :: rest2 =>
      show computeTableIndexGo state ((acc + bitVal state a) <<< 1) (b :: rest2) = _
      rw [ih ((acc + bitVal state a) <<< 1)]
      conv_rhs =>
        rw [show computeTableIndexGo state 0 (a :: b :: rest2) =
          computeTableIndexGo state ((0 + bitVal state a) <<< 1) (b :: rest2) from rfl]
      rw [ih ((0 + bitVal state a) <<< 1)]
      simp only [Nat.shiftLeft_eq, List.length_cons, Nat.add_sub_cancel, Nat.zero_add,
        Nat.pow_succ]
      ring_nf

/-- Decomposition of the table index: the first argument lands in the most
significant position. -/
theorem compute_table_index_cons (state a : Nat) (rest : List Nat) :
    compute_table_index state (a :: rest) =
      bitVal state a * 2 ^ rest.length + compute_table_index state rest := by
  match rest with
  | [] => simp [compute_table_index, computeTableIndexGo, bitVal]
  | b :: rest2 =>
    show computeTableIndexGo state ((0 + bitVal state a) <<< 1) (b :: rest2) = _
    rw [computeTableIndexGo_acc state (b :: rest2)]
    simp only [Nat.shiftLeft_eq, Nat.zero_add, List.length_cons, Nat.add_sub_cancel]
    rw [Nat.mul_assoc, ← Nat.pow_succ']
    rfl

theorem compute_table_index_lt (state : Nat) (args : List Nat) :
    compute_table_index state args < 2 ^ args.length := by
  induction args with
  | nil => simp [compute_table_index, computeTableIndexGo]
  | cons a rest ih =>
    rw [compute_table_index_cons]
    have hb := bitVal_le_one state a
    have : bitVal state a * 2 ^ rest.length ≤ 2 ^ rest.length :=
      Nat.mul_le_mul_right _ hb |>.trans_eq (Nat.one_mul _)
    calc bitVal state a * 2 ^ rest.length + compute_table_index state rest
        < bitVal state a * 2 ^ rest.length + 2 ^ rest.length :=
          Nat.add_lt_add_left ih _
      _ ≤ 2 ^ rest.length + 2 ^ rest.length := Nat.add_le_add_right this _
      _ = 2 ^ (a :: rest).length := by
          simp only [List.length_cons, Nat.pow_succ]
          omega

theorem getD_of_lt {α : Type} (l : List α) (i : Nat) (d : α) (h : i < l.length) :
    l.getD i d = l[i] := by
  simp [List.getD_eq_getElem?_getD, List.getElem?_eq_getElem h]

/-- Bit j of the table index is the state bit of the argument at position
length - 1 - j: the first argument is most significant. -/
theorem compute_table_index_testBit (state : Nat) :
    ∀ (args : List Nat) (j : Nat), j < args.length →
      (compute_table_index state args).testBit j =
        stateIsSet state (args.getD (args.length - 1 - j) 0) := by
  intro args
  induction args with
  | nil => intro j hj; simp at hj
  | cons a rest ih =>
    intro j hj
    rw [compute_table_index_cons, Nat.mul_comm,
      Nat.testBit_mul_pow_two_add _ (compute_table_index_lt state rest) j]
    by_cases hjr : j < rest.length
    · rw [if_pos hjr, ih j hjr]
      have h1 : (a :: rest).length - 1 - j = (rest.length - 1 - j) + 1 := by
        simp only [List.length_cons]; omega
      rw [h1]
      rfl
    · have hje : j = rest.length := by
        simp only [List.length_cons] at hj; omega
      subst hje
      rw [if_neg (Nat.lt_irrefl _), Nat.sub_self]
      have h2 : (a :: rest).length - 1 - rest.length = 0 := by
        simp only [List.length_cons]; omega
      rw [h2]
      show (bitVal state a).testBit 0 = stateIsSet state a
      unfold bitVal
      cases stateIsSet state a <;> simp

/-- Bits outside the regulator list are left untouched by the pack loop. -/
theorem packGo_testBit_not_mem (idx : Nat) :
    ∀ (regs : List Nat) (i st m : Nat), m ∉ regs →
      (packGo idx st i regs).testBit m = st.testBit m := by
  intro regs
  induction regs with
  | nil => intro i st m _; rfl
  | cons r rest ih =>
    intro i st m hm
    have hmr : m ≠ r := fun h => hm (h ▸ List.mem_cons_self r rest)
    have hmrest : m ∉ rest := fun h => hm (List.mem_cons_of_mem r h)
    show (packGo idx (if _ then _ else _) (i + 1) rest).testBit m = _
    rw [ih (i + 1) _ m hmrest]
    split
    · rw [Nat.testBit_or, Nat.one_shiftLeft,
        Nat.testBit_two_pow_of_ne (fun h => hmr h.symm), Bool.or_false]
    · rfl

/-- Bit regs(j) of the packed state is bit i + j of the table index: the
pack loop reads the index little-endian. -/
theorem packGo_testBit_mem (idx : Nat) :
    ∀ (regs : List Nat) (i j st : Nat), regs.Nodup → j < regs.length →
      st.testBit (regs.getD j 0) = false →
      (packGo idx st i regs).testBit (regs.getD j 0) = idx.testBit (i + j) := by
  intro regs
  induction regs with
  | nil => intro i j st _ hj; simp at hj
  | cons r rest ih =>
    intro i j st hnd hj hst
    have hr : r ∉ rest := (List.nodup_cons.mp hnd).1
    match j with
    | 0 =>
      have hget : (r :: rest).getD 0 0 = r := rfl
      rw [hget] at hst ⊢
      show (packGo idx (if _ then _ else _) (i + 1) rest).testBit r = _
      rw [packGo_testBit_not_mem idx rest (i + 1) _ r hr]
      have hidx : ((idx >>> i) &&& 1 == 1) = idx.testBit i := by
        simp only [Nat.testBit, Nat.and_one_is_mod, Nat.one_and_eq_mod_two]
        rcases Nat.mod_two_eq_zero_or_one (idx >>> i) with h | h <;> simp [h]
      rw [Nat.add_zero, hidx]
      cases hbit : idx.testBit i
      · simp [hst]
      · simp [Nat.testBit_or, Nat.one_shiftLeft, Nat.testBit_two_pow_self]
    | j + 1 =>
      have hget : (r :: rest).getD (j + 1) 0 = rest.getD j 0 := rfl
      rw [hget] at hst ⊢
      have hjlt : j < rest.length := by simp at hj; omega
      have hmem : rest.getD j 0 ∈ rest := by
        rw [getD_of_lt rest j 0 hjlt]; exact List.getElem_mem hjlt
      have hner : r ≠ rest.getD j 0 := fun h => hr (h ▸ hmem)
      show (packGo idx (if _ then _ else _) (i + 1) rest).testBit _ = _
      have hst2 : (if (idx >>> i) &&& 1 == 1 then st ||| (1 <<< r) else st).testBit
          (rest.getD j 0) = false := by
        split
        · rw [Nat.testBit_or, Nat.one_shiftLeft, Nat.testBit_two_pow_of_ne hner, hst]
          rfl
        · exact hst
      rw [ih (i + 1) j _ (List.nodup_cons.mp hnd).2 hjlt hst2]
      congr 1
      omega

/-! ## Boolean network data model (src/src/boolean_network/mod.rs). -/

inductive Effect where
  | ACTIVATION
  | INHIBITION
deriving DecidableEq

structure Regulation where
  source : Nat
  target : Nat
  observable : Bool
  effect : Option Effect
deriving DecidableEq

structure RegulatoryGraph where
  vars : List String
  regulations : List Regulation
deriving DecidableEq

namespace RegulatoryGraph

def num_vars (rg : RegulatoryGraph) : Nat := rg.vars.length

/-- Lookup of a variable id by name.  The variable_to_index map of the
source is keyed by the distinct variable names; first-occurrence search
agrees with it on every graph with distinct names (the only graphs the
constructors produce). -/
def get_variable_id (rg : RegulatoryGraph) (name : String) : Option Nat :=
  rg.vars.findIdx? (· == name)

/-- Linear scan for a regulation between two variables, first match wins
as in the source. -/
def get_regulation (rg : RegulatoryGraph) (source target : Nat) :
    Option Regulation :=
  rg.regulations.find? (fun r => r.source == source && r.target == target)

/-- Modelled from the spec: get_regulators is called by the encoder and the
admissibility computation but its definition is missing from src.  Per the
specification, the regulators of a variable are the sources of the
regulations targeting it; they are returned in ascending id order. -/
def get_regulators (rg : RegulatoryGraph) (target : Nat) : List Nat :=
  (List.range rg.num_vars).filter
    (fun s => rg.regulations.any (fun r => r.source == s && r.target == target))

/-- Modelled from the spec: the number of regulators of a variable. -/
def num_regulators (rg : RegulatoryGraph) (target : Nat) : Nat :=
  (rg.get_regulators target).length

end RegulatoryGraph

inductive UpdateFunction where
  | Parameter (id : Nat) (inputs : List Nat)
  | Variable (id : Nat)
  | Not (inner : UpdateFunction)
  | And (a b : UpdateFunction)
  | Or (a b : UpdateFunction)
  | Xor (a b : UpdateFunction)
  | Iff (a b : UpdateFunction)
  | Imp (a b : UpdateFunction)
deriving DecidableEq

structure Parameter where
  name : String
  cardinality : Nat
deriving DecidableEq

/-- A parametrised Boolean network.  The parameter_to_index map of the
source is kept in sync with the parameters vector by the only code that
inserts into either, so it is modelled as first-occurrence search of the
parameters vector by name. -/
structure BooleanNetwork where
  regulatory_graph : RegulatoryGraph
  parameters : List Parameter
  update_functions : List (Option UpdateFunction)
deriving DecidableEq

namespace BooleanNetwork

def num_vars (bn : BooleanNetwork) : Nat := bn.regulatory_graph.num_vars

def get_update_function (bn : BooleanNetwork) (id : Nat) : Option UpdateFunction :=
  bn.update_functions.getD id none

def get_parameter_id (bn : BooleanNetwork) (name : String) : Option Nat :=
  bn.parameters.findIdx? (·.name == name)

def get_parameter (bn : BooleanNetwork) (id : Nat) : Parameter :=
  bn.parameters.getD id { name := "", cardinality := 0 }

end BooleanNetwork

/-! ## BDD parameter encoder (src/src/boolean_network/bdd_params/mod.rs).
The builder allocates fresh BDD variables sequentially, one per row of
every function table, named parameters first in declaration order, then
anonymous parameters in variable order; a BDD variable is its
allocation index. -/

def allocNamedTables : List Nat → Nat → List (List Nat)
  | [], _ => []
  | c :: rest, start =>
    ((List.range (2 ^ c)).map (fun r => start + r)) :: allocNamedTables rest (start + 2 ^ c)

def allocAnonTables : List (Option Nat) → Nat → List (List Nat)
  | [], _ => []
  | none :: rest, start => [] :: allocAnonTables rest start
  | some c :: rest, start =>
    ((List.range (2 ^ c)).map (fun r => start + r)) :: allocAnonTables rest (start + 2 ^ c)

structure BddParameterEncoder where
  regulators : List (List Nat)
  parameter_bdd_variables : List (List Nat)
  anonymous_bdd_variables : List (List Nat)
  bdd_variable_count : Nat
deriving DecidableEq

namespace BddParameterEncoder

def anonCardsOf (network : BooleanNetwork) : List (Option Nat) :=
  (List.range network.num_vars).map (fun v =>
    if (network.update_functions.getD v none).isNone then
      some (network.regulatory_graph.num_regulators v)
    else none)

def new (network : BooleanNetwork) : BddParameterEncoder :=
  let namedCards := network.parameters.map (·.cardinality)
  let namedCount := (namedCards.map (2 ^ ·)).sum
  let anonCards := anonCardsOf network
  let anonCount := (anonCards.map (fun c => match c with
    | some c => 2 ^ c
    | none => 0)).sum
  { regulators :=
      (List.range network.num_vars).map network.regulatory_graph.get_regulators
    parameter_bdd_variables := allocNamedTables namedCards 0
    anonymous_bdd_variables := allocAnonTables anonCards namedCount
    bdd_variable_count := namedCount + anonCount }

/-- Which BddVariable governs the behaviour of the given named parameter
function in the given state. -/
def evaluate_parameter (enc : BddParameterEncoder) (state : Nat) (p : Nat)
    (args : List Nat) : Nat :=
  (enc.parameter_bdd_variables.getD p []).getD (compute_table_index state args) 0

/-- Which BddVariable governs the behaviour of the anonymous parameter of
the given variable in the given state. -/
def evaluate_anonymous_parameter (enc : BddParameterEncoder) (state : Nat)
    (v : Nat) : Nat :=
  (enc.anonymous_bdd_variables.getD v []).getD
    (compute_table_index state (enc.regulators.getD v [])) 0

end BddParameterEncoder

/-- Size of the BDD variable set built for a network. -/
def encoderVarCount (network : BooleanNetwork) : Nat :=
  (BddParameterEncoder.new network).bdd_variable_count

/-! ## Parametrized asynchronous graph
(src/src/boolean_network/async_graph). -/

structure BooleanAsyncGraph (n : Nat) where
  network : BooleanNetwork
  parameter_encoder : BddParameterEncoder
  unit_set : BddParams n

namespace BooleanAsyncGraph

def num_states {n : Nat} (g : BooleanAsyncGraph n) : Nat :=
  1 <<< g.network.num_vars

def unit_params {n : Nat} (g : BooleanAsyncGraph n) : BddParams n := g.unit_set

def empty_params {n : Nat} (g : BooleanAsyncGraph n) : BddParams n :=
  ⟨Bdd.mk_false n⟩

/-- Parameter set for which the given update function evaluates to one in
the given state. -/
def eval_update_function {n : Nat} (g : BooleanAsyncGraph n) (state : Nat) :
    UpdateFunction → BddParams n
  | .Variable id =>
    if stateIsSet state id then g.unit_params else g.empty_params
  | .Parameter id inputs =>
    ⟨Bdd.mk_var n (g.parameter_encoder.evaluate_parameter state id inputs)⟩
  | .Not inner =>
    ⟨(g.unit_params).bdd.and_not (g.eval_update_function state inner).bdd⟩
  | .And a b =>
    ⟨(g.eval_update_function state a).bdd.and (g.eval_update_function state b).bdd⟩
  | .Or a b =>
    ⟨(g.eval_update_function state a).bdd.or (g.eval_update_function state b).bdd⟩
  | .Imp a b =>
    ⟨(g.eval_update_function state a).bdd.imp (g.eval_update_function state b).bdd⟩
  | .Iff a b =>
    ⟨(g.eval_update_function state a).bdd.iff (g.eval_update_function state b).bdd⟩
  | .Xor a b =>
    ⟨(g.eval_update_function state a).bdd.xor (g.eval_update_function state b).bdd⟩

/-- The parameter set which enables the value of the given variable to be
flipped in the given state. -/
def edge_params {n : Nat} (g : BooleanAsyncGraph n) (state : Nat) (v : Nat) :
    BddParams n :=
  let ep := match g.network.update_functions.getD v none with
    | some update_function => g.eval_update_function state update_function
    | none =>
      ⟨Bdd.mk_var n (g.parameter_encoder.evaluate_anonymous_parameter state v)⟩
  if stateIsSet state v then g.unit_params.minus ep else ep

/-- Helper which conjoins the monotonicity requirement of one table row. -/
def ensure_monotonicity {n : Nat} (condition active inactive : Bdd n)
    (effect : Effect) : Bdd n :=
  let monotonicity := if effect = Effect.ACTIVATION then
      inactive.imp active
    else
      active.imp inactive
  condition.and monotonicity

def ensure_monotonous {n : Nat} (g : BooleanAsyncGraph n)
    (regulator target : Nat) (effect : Effect) : BddParams n :=
  let all_regulators := g.network.regulatory_graph.get_regulators target
  let regulator_index := all_regulators.findIdx (· == regulator)
  let regulator_mask := 1 <<< regulator_index
  let function_table_size := (1 : Nat) <<< all_regulators.length
  let inactive_table_indices :=
    (List.range function_table_size).filter (fun i => i &&& regulator_mask == 0)
  match g.network.update_functions.getD target none with
  | some update_function =>
    ⟨inactive_table_indices.foldl (fun condition inactive_index =>
      let inactive_state := pack_table_index_into_state_id inactive_index all_regulators
      let active_state := stateFlipBit inactive_state regulator
      let inactive_true := (g.eval_update_function inactive_state update_function).bdd
      let active_true := (g.eval_update_function active_state update_function).bdd
      ensure_monotonicity condition active_true inactive_true effect)
      (Bdd.mk_true n)⟩
  | none =>
    ⟨inactive_table_indices.foldl (fun condition inactive_index =>
      let inactive_state := pack_table_index_into_state_id inactive_index all_regulators
      let active_state := stateFlipBit inactive_state regulator
      let inactive_true := Bdd.mk_var n
        (g.parameter_encoder.evaluate_anonymous_parameter inactive_state target)
      let active_true := Bdd.mk_var n
        (g.parameter_encoder.evaluate_anonymous_parameter active_state target)
      ensure_monotonicity condition active_true inactive_true effect)
      (Bdd.mk_true n)⟩

def ensure_observable {n : Nat} (g : BooleanAsyncGraph n)
    (regulator target : Nat) : BddParams n :=
  let all_regulators := g.network.regulatory_graph.get_regulators target
  let regulator_index := all_regulators.findIdx (· == regulator)
  let regulator_mask := 1 <<< regulator_index
  let function_table_size := (1 : Nat) <<< all_regulators.length
  let inactive_table_indices :=
    (List.range function_table_size).filter (fun i => i &&& regulator_mask == 0)
  match g.network.update_functions.getD target none with
  | some update_function =>
    ⟨inactive_table_indices.foldl (fun condition inactive_index =>
      let inactive_state := pack_table_index_into_state_id inactive_index all_regulators
      let active_state := stateFlipBit inactive_state regulator
      let inactive_true := (g.eval_update_function inactive_state update_function).bdd
      let active_true := (g.eval_update_function active_state update_function).bdd
      condition.or ((active_true.iff inactive_true).not))
      (Bdd.mk_false n)⟩
  | none =>
    ⟨inactive_table_indices.foldl (fun condition inactive_index =>
      let inactive_state := pack_table_index_into_state_id inactive_index all_regulators
      let active_state := stateFlipBit inactive_state regulator
      let inactive_true := Bdd.mk_var n
        (g.parameter_encoder.evaluate_anonymous_parameter inactive_state target)
      let active_true := Bdd.mk_var n
        (g.parameter_encoder.evaluate_anonymous_parameter active_state target)
      condition.or ((active_true.iff inactive_true).not))
      (Bdd.mk_false n)⟩

/-- The condition accumulated over all regulations by the constructor,
starting from the unit set of the fake graph (the true BDD) and using the
fake graph for the symbolic evaluations, exactly as in the source; the
source binds this value to the local condition variable and both tests it
and stores it, which is expressed here by naming it. -/
def admissCondition (network : BooleanNetwork) :
    BddParams (encoderVarCount network) :=
  let encoder := BddParameterEncoder.new network
  let fake_graph : BooleanAsyncGraph (encoderVarCount network) :=
    { unit_set := ⟨Bdd.mk_true _⟩, parameter_encoder := encoder
      network := network }
  network.regulatory_graph.regulations.foldl (fun condition regulation =>
    let condition := match regulation.effect with
      | some effect =>
        condition.intersect
          (fake_graph.ensure_monotonous regulation.source regulation.target effect)
      | none => condition
    if regulation.observable then
      condition.intersect
        (fake_graph.ensure_observable regulation.source regulation.target)
    else condition) fake_graph.unit_set

def new (network : BooleanNetwork) :
    Except String (BooleanAsyncGraph (encoderVarCount network)) :=
  if network.num_vars > 32 then
    .error "Cannot create state space graph. At most 32 variables supported."
  else if (BooleanAsyncGraph.admissCondition network).is_empty then
    .error "There are no update functions satisfying given regulation constraints"
  else
    .ok { parameter_encoder := BddParameterEncoder.new network
          network := network
          unit_set := admissCondition network }

end BooleanAsyncGraph

/-- The forward evolution operator: for each variable in ascending order,
the flipped state together with the edge label intersected with the unit
set (src/src/boolean_network/async_graph/impl_evolution_operators.rs). -/
def fwdStep {n : Nat} (g : BooleanAsyncGraph n) (source : Nat) :
    List (Nat × BddParams n) :=
  (List.range g.network.num_vars).map (fun v =>
    (stateFlipBit source v, (g.edge_params source v).intersect g.unit_set))

/-- The backward evolution operator: the predecessor across each variable
with the edge label of the predecessor edge intersected with the unit set. -/
def bwdStep {n : Nat} (g : BooleanAsyncGraph n) (target : Nat) :
    List (Nat × BddParams n) :=
  (List.range g.network.num_vars).map (fun v =>
    (stateFlipBit target v,
      (g.edge_params (stateFlipBit target v) v).intersect g.unit_set))

theorem maskOf_testBit (args : List Nat) (m : Nat) :
    (maskOf args).testBit m = decide (m ∈ args) := by
  induction args with
  | nil => simp [maskOf]
  | cons a rest ih =>
    show ((maskOf rest) ||| (1 <<< a)).testBit m = _
    rw [Nat.testBit_or, Nat.one_shiftLeft, ih, Nat.testBit_two_pow]
    by_cases h1 : m ∈ rest <;> by_cases h2 : a = m <;>
      simp [h1, h2, List.mem_cons] <;> omega

/-- Claim C5 counterexample: the round trip of the specification fails for
state 1 and the distinct argument list 0, 1: compute_table_index writes the
first argument to the most significant index bit while
pack_table_index_into_state_id reads index bits little-endian, so the bit
pattern comes back reversed. -/
theorem pack_compute_round_trip_fails :
    ([0, 1] : List Nat).Nodup
    ∧ (pack_table_index_into_state_id (compute_table_index 1 [0, 1]) [0, 1]
        &&& maskOf [0, 1])
      ≠ ((1 : Nat) &&& maskOf [0, 1]) := by
  decide

/-- Claim C5 as amended: packing with the reversed argument list restores
the original state on the bits of args: the two index conventions are
mutually reversed, and composing them through a list reversal is the
identity on the masked bits. -/
theorem pack_compute_reversed_round_trip (state : Nat) (args : List Nat)
    (h : args.Nodup) :
    (pack_table_index_into_state_id (compute_table_index state args) args.reverse
        &&& maskOf args)
      = (state &&& maskOf args) := by
  apply Nat.eq_of_testBit_eq
  intro m
  simp only [Nat.testBit_and, maskOf_testBit]
  by_cases hm : m ∈ args
  · simp only [hm, decide_True, Bool.and_true]
    obtain ⟨j, hj, hjm⟩ := List.mem_iff_getElem.mp hm
    have hjm2 : args.getD j 0 = m := by rw [getD_of_lt _ _ _ hj]; exact hjm
    have hk0 : 0 < args.length := Nat.lt_of_le_of_lt (Nat.zero_le _) hj
    have hjr : args.length - 1 - j < args.reverse.length := by
      rw [List.length_reverse]; omega
    have hone : args.length - 1 - (args.length - 1 - j) = j := by omega
    have hrevget : args.reverse.getD (args.length - 1 - j) 0 = m := by
      rw [getD_of_lt _ _ _ hjr, List.getElem_reverse]
      simp only [hone]
      exact hjm
    have hpack := packGo_testBit_mem (compute_table_index state args)
      args.reverse 0 (args.length - 1 - j) 0 (List.nodup_reverse.mpr h) hjr
      (Nat.zero_testBit _)
    rw [hrevget, Nat.zero_add] at hpack
    have hcomp := compute_table_index_testBit state args (args.length - 1 - j)
      (by omega)
    have hidx : args.length - 1 - (args.length - 1 - j) = j := by omega
    rw [hidx, hjm2] at hcomp
    show (packGo (compute_table_index state args) 0 0 args.reverse).testBit m = _
    rw [hpack, hcomp]
    rfl
  · simp [hm]

/-- Witness of the amended claim C5 at state 1 and arguments 0, 1. -/
theorem pack_compute_reversed_round_trip_witness :
    ([0, 1] : List Nat).Nodup
    ∧ (pack_table_index_into_state_id (compute_table_index 1 [0, 1])
          ([0, 1] : List Nat).reverse &&& maskOf [0, 1])
        = ((1 : Nat) &&& maskOf [0, 1]) :=
  ⟨by decide, pack_compute_reversed_round_trip 1 [0, 1] (by decide)⟩

/-- Concrete engine state for the witness of claim C2. -/
def c2wSt : EngineState (BddParams 1) :=
  { labels := [⟨Bdd.mk_true 1⟩], queue := [false], wip := false }

def c2wEdge : Nat × BddParams 1 := (0, ⟨Bdd.mk_true 1⟩)

def c2wCurrent : BddParams 1 := c2wSt.labels.getD c2wEdge.1 ⟨Bdd.mk_false 1⟩

def c2wTransfer : BddParams 1 :=
  (bddParamsOps 1).intersect (c2wSt.labels.getD 0 ⟨Bdd.mk_false 1⟩) c2wEdge.2

def c2wNew : BddParams 1 := (bddParamsOps 1).union c2wCurrent c2wTransfer

/-- Witness for claim C2: a concrete update that passes the read-only skip
check, instantiating the theorem. -/
theorem update_closure_changed_iff_enlarged_witness :
    (bddParamsOps 1).is_subset_of c2wTransfer c2wCurrent = false
    ∧ (((bddParamsOps 1).is_subset_of c2wNew c2wCurrent =
        ! Bdd.semSubset c2wNew.bdd c2wCurrent.bdd)
      ∧ Bdd.semSubset c2wCurrent.bdd c2wNew.bdd = true
      ∧ processEdge (bddParamsOps 1) ⟨Bdd.mk_false 1⟩ 0 c2wSt c2wEdge =
          (if (bddParamsOps 1).is_subset_of c2wNew c2wCurrent then
            { labels := c2wSt.labels.set c2wEdge.1 c2wNew
              queue := queueSet c2wSt.queue c2wEdge.1, wip := true }
          else
            { labels := c2wSt.labels.set c2wEdge.1 c2wNew
              queue := c2wSt.queue, wip := c2wSt.wip })) :=
  ⟨by decide,
   update_closure_changed_iff_enlarged 1 c2wSt 0 c2wEdge c2wCurrent c2wTransfer
     c2wNew rfl rfl rfl (by decide)⟩

/-! ## Concrete networks used to evaluate the graph constructor. -/

/-- The network a -> b with the update function of b equal to not a: the
monotonicity constraint of the activation a -> b is unsatisfiable, so its
admissibility condition is the empty parameter set. -/
def netMono : BooleanNetwork :=
  { regulatory_graph :=
      { vars := ["a", "b"]
        regulations :=
          [{ source := 0, target := 1, observable := true
             effect := some Effect.ACTIVATION }] }
    parameters := []
    update_functions := [none, some (UpdateFunction.Not (UpdateFunction.Variable 0))] }

/-- The graph produced by the constructor on netMono (the constructor
accepts this network; see the claim C8 theorem). -/
def gMono : BooleanAsyncGraph (encoderVarCount netMono) :=
  match BooleanAsyncGraph.new netMono with
  | .ok g => g
  | .error _ =>
    { network := netMono
      parameter_encoder := BddParameterEncoder.new netMono
      unit_set := ⟨Bdd.mk_false _⟩ }

/-- Helper: a graph returned by the constructor has a unit set whose BDD is
the constant-false function, because the constructor keeps the graph exactly
when the inverted is_empty of the accumulated condition returns false. -/
theorem new_ok_unit_is_false {network : BooleanNetwork}
    {g : BooleanAsyncGraph (encoderVarCount network)}
    (h : BooleanAsyncGraph.new network = .ok g) :
    Bdd.is_false g.unit_set.bdd = true := by
  unfold BooleanAsyncGraph.new at h
  split at h
  · cases h
  · split at h
    · cases h
    · rename_i hB
      injection h with h2
      subst h2
      cases hv : Bdd.is_false (BooleanAsyncGraph.admissCondition network).bdd with
      | true => rfl
      | false =>
        exact absurd (show (BooleanAsyncGraph.admissCondition network).is_empty = true by
          simp [BddParams.is_empty, hv]) hB

/-- Claim C4 (confirmed, degenerately): for every successfully constructed
graph and every state and variable, the edge label is invariant under
flipping that variable, bit-for-bit after intersection with the unit set.
This holds because the constructor (through the inverted is_empty) only
returns a graph when the admissibility condition is the empty set, so both
sides are the constant-false BDD. -/
theorem edge_params_flip_symmetric_after_unit {network : BooleanNetwork}
    {g : BooleanAsyncGraph (encoderVarCount network)}
    (h : BooleanAsyncGraph.new network = .ok g) (s v : Nat) :
    (g.edge_params s v).intersect g.unit_set =
      (g.edge_params (stateFlipBit s v) v).intersect g.unit_set := by
  have hu := new_ok_unit_is_false h
  have hval : ∀ val, g.unit_set.bdd val = false := by
    simpa [Bdd.is_false] using of_decide_eq_true hu
  unfold BddParams.intersect
  congr 1
  funext val
  simp [Bdd.and, hval val]

/-- Witness of claim C4: the constructor accepts netMono, and the edge
labels across variable 0 at states 0 and 1 coincide after intersection
with the unit set. -/
theorem edge_params_flip_symmetric_after_unit_witness :
    BooleanAsyncGraph.new netMono = Except.ok gMono
    ∧ (gMono.edge_params 0 0).intersect gMono.unit_set =
        (gMono.edge_params (stateFlipBit 0 0) 0).intersect gMono.unit_set :=
  ⟨by rfl, edge_params_flip_symmetric_after_unit (by rfl) 0 0⟩

/-- Claim C7 (confirmed): every edge label yielded by the forward or the
backward evolution operator is contained in the unit set, because each
yielded label is intersected with the unit set before being returned. -/
theorem step_labels_subset_unit {network : BooleanNetwork}
    {g : BooleanAsyncGraph (encoderVarCount network)}
    (h : BooleanAsyncGraph.new network = .ok g) (s t : Nat)
    (l : BddParams (encoderVarCount network))
    (hmem : (t, l) ∈ fwdStep g s ∨ (t, l) ∈ bwdStep g s) :
    Bdd.semSubset l.bdd g.unit_set.bdd = true := by
  rcases hmem with hmem | hmem
  · obtain ⟨v, hv, heq⟩ := List.mem_map.mp hmem
    have h2 : (g.edge_params s v).intersect g.unit_set = l := congrArg Prod.snd heq
    rw [← h2]
    exact Bdd.semSubset_and_left _ _
  · obtain ⟨v, hv, heq⟩ := List.mem_map.mp hmem
    have h2 : (g.edge_params (stateFlipBit s v) v).intersect g.unit_set = l :=
      congrArg Prod.snd heq
    rw [← h2]
    exact Bdd.semSubset_and_left _ _

/-- Witness of claim C7: the first forward edge of state 0 of the graph on
netMono carries a label contained in the unit set. -/
theorem step_labels_subset_unit_witness :
    BooleanAsyncGraph.new netMono = Except.ok gMono
    ∧ Bdd.semSubset ((gMono.edge_params 0 0).intersect gMono.unit_set).bdd
        gMono.unit_set.bdd = true :=
  ⟨by rfl,
   step_labels_subset_unit (by rfl) 0 (stateFlipBit 0 0) _
     (Or.inl (List.mem_map.mpr ⟨0, by decide, rfl⟩))⟩

/-- Claim C8 (code bug), evaluated at the failing input: on netMono, whose
admissibility condition is the empty parameter set (the monotonicity of the
activation a -> b contradicts the update function not a), the constructor
returns Ok with a unit set that is the constant-false BDD, instead of the
claimed admissibility error: the branch tests the condition with the
inverted is_empty, so the success and failure cases are swapped. -/
theorem new_swaps_admissibility_check :
    (BooleanAsyncGraph.new netMono).map
      (fun g => Bdd.is_false g.unit_set.bdd) = Except.ok true := by rfl

/-! ## Claim C6: canonical row-index order of the encoder. -/

/-- The network a -> b, b -> a with the update function of a equal to
p(a, b), from the row-index scenario of the specification: variable a has
id 0, b has id 1, and p is the only (binary) parameter. -/
def netC6 : BooleanNetwork :=
  { regulatory_graph :=
      { vars := ["a", "b"]
        regulations :=
          [{ source := 0, target := 1, observable := true
             effect := some Effect.ACTIVATION },
           { source := 1, target := 0, observable := true
             effect := some Effect.ACTIVATION }] }
    parameters := [{ name := "p", cardinality := 2 }]
    update_functions := [some (UpdateFunction.Parameter 0 [0, 1]), none] }

/-- Claim C6 (confirmed): the row index of a state under an argument list
is the integer whose binary expansion lists the state bits of the arguments
with the first argument most significant; evaluate_parameter returns the
table entry of the parameter at that row; consequently, on the scenario
network, state 0b11 yields the same BDD variable for the argument orders
0, 1 and 1, 0 while state 0b01 yields different variables. -/
theorem row_index_msb_first :
    (∀ (state : Nat) (args : List Nat),
      compute_table_index state args =
        ∑ i ∈ Finset.range args.length,
          (if stateIsSet state (args.getD i 0) then 2 ^ (args.length - 1 - i) else 0))
    ∧ (∀ (enc : BddParameterEncoder) (state p : Nat) (args : List Nat),
        enc.evaluate_parameter state p args =
          (enc.parameter_bdd_variables.getD p []).getD
            (compute_table_index state args) 0)
    ∧ (BddParameterEncoder.new netC6).evaluate_parameter 3 0 [0, 1] =
        (BddParameterEncoder.new netC6).evaluate_parameter 3 0 [1, 0]
    ∧ (BddParameterEncoder.new netC6).evaluate_parameter 1 0 [0, 1] ≠
        (BddParameterEncoder.new netC6).evaluate_parameter 1 0 [1, 0] := by
  refine ⟨?_, fun enc state p args => rfl, by decide, by decide⟩
  intro state args
  induction args with
  | nil => simp [compute_table_index, computeTableIndexGo]
  | cons a rest ih =>
    rw [compute_table_index_cons, ih]
    simp only [List.length_cons]
    rw [Finset.sum_range_succ']
    simp only [List.getD_cons_succ, List.getD_cons_zero,
      Nat.add_sub_cancel, Nat.sub_zero]
    have hterm : ∀ i : Nat,
        (if stateIsSet state (rest.getD i 0) then 2 ^ (rest.length - (i + 1)) else 0)
          = (if stateIsSet state (rest.getD i 0) then 2 ^ (rest.length - 1 - i) else 0) := by
      intro i
      have : rest.length - (i + 1) = rest.length - 1 - i := by omega
      rw [this]
    rw [Finset.sum_congr rfl (fun i _ => hterm i)]
    unfold bitVal
    split <;> simp [Nat.add_comm]

/-! ## Network builder: add_update_function
(src/src/boolean_network/builder/impl_boolean_network_builder.rs and
impl_update_function_template.rs).  The input update function is the
parsed template (the claims concern well-formed function texts, for which
the parse step of the source succeeds and yields this tree). -/

inductive UpdateFunctionTemplate where
  | Parameter (name : String) (inputs : List String)
  | Variable (name : String)
  | Not (inner : UpdateFunctionTemplate)
  | And (a b : UpdateFunctionTemplate)
  | Or (a b : UpdateFunctionTemplate)
  | Xor (a b : UpdateFunctionTemplate)
  | Iff (a b : UpdateFunctionTemplate)
  | Imp (a b : UpdateFunctionTemplate)
deriving DecidableEq

namespace UpdateFunctionTemplate

/-- Swap variables that do not occur in the regulatory graph for unary
(zero-input) parameters. -/
def swap_unary_parameters : UpdateFunctionTemplate → RegulatoryGraph →
    UpdateFunctionTemplate
  | Variable name, rg =>
    if (rg.get_variable_id name).isSome then Variable name
    else Parameter name []
  | Parameter name inputs, _ => Parameter name inputs
  | Not inner, rg => Not (inner.swap_unary_parameters rg)
  | And a b, rg => And (a.swap_unary_parameters rg) (b.swap_unary_parameters rg)
  | Or a b, rg => Or (a.swap_unary_parameters rg) (b.swap_unary_parameters rg)
  | Xor a b, rg => Xor (a.swap_unary_parameters rg) (b.swap_unary_parameters rg)
  | Iff a b, rg => Iff (a.swap_unary_parameters rg) (b.swap_unary_parameters rg)
  | Imp a b, rg => Imp (a.swap_unary_parameters rg) (b.swap_unary_parameters rg)

end UpdateFunctionTemplate

/-- Alias mirroring the use of Parameter as BNParameter in the source,
needed because the template constructors shadow the name inside the
UpdateFunctionTemplate namespace. -/
abbrev BNParameter : Type := Parameter

/-- Insertion into the set of parameters found in a function (the HashSet
of the source, modelled as a duplicate-free list in first-occurrence
order; the derived error checks are membership-only, hence order blind). -/
def insertParam (l : List Parameter) (p : Parameter) : List Parameter :=
  if p ∈ l then l else l ++ [p]

def unionParams (a b : List Parameter) : List Parameter :=
  b.foldl insertParam a

def insertName (l : List String) (s : String) : List String :=
  if s ∈ l then l else l ++ [s]

def unionNames (a b : List String) : List String :=
  b.foldl insertName a

/-- All parameters occurring in the function with their cardinalities. -/
def UpdateFunctionTemplate.extract_parameters :
    UpdateFunctionTemplate → List BNParameter
  | .Parameter name inputs => [{ name := name, cardinality := inputs.length }]
  | .Variable _ => []
  | .Not inner => inner.extract_parameters
  | .And a b => unionParams a.extract_parameters b.extract_parameters
  | .Or a b => unionParams a.extract_parameters b.extract_parameters
  | .Xor a b => unionParams a.extract_parameters b.extract_parameters
  | .Iff a b => unionParams a.extract_parameters b.extract_parameters
  | .Imp a b => unionParams a.extract_parameters b.extract_parameters

/-- All variables occurring in the function (not counting parameter
arguments, which the source never extracts). -/
def UpdateFunctionTemplate.extract_variables :
    UpdateFunctionTemplate → List String
  | .Parameter _ _ => []
  | .Variable name => [name]
  | .Not inner => inner.extract_variables
  | .And a b => unionNames a.extract_variables b.extract_variables
  | .Or a b => unionNames a.extract_variables b.extract_variables
  | .Xor a b => unionNames a.extract_variables b.extract_variables
  | .Iff a b => unionNames a.extract_variables b.extract_variables
  | .Imp a b => unionNames a.extract_variables b.extract_variables

/-- All names used as parameter arguments somewhere in the function. -/
def UpdateFunctionTemplate.paramInputNames : UpdateFunctionTemplate → List String
  | .Parameter _ inputs => inputs
  | .Variable _ => []
  | .Not inner => inner.paramInputNames
  | .And a b => a.paramInputNames ++ b.paramInputNames
  | .Or a b => a.paramInputNames ++ b.paramInputNames
  | .Xor a b => a.paramInputNames ++ b.paramInputNames
  | .Iff a b => a.paramInputNames ++ b.paramInputNames
  | .Imp a b => a.paramInputNames ++ b.paramInputNames

/-- Resolution of the argument names of a parameter invocation. -/
def resolveArgs (variable_to_index : String → Option Nat) :
    List String → Except String (List Nat)
  | [] => .ok []
  | i :: rest =>
    match variable_to_index i with
    | none => .error ("Cannot build update function. Unknown variable " ++ i)
    | some idx =>
      match resolveArgs variable_to_index rest with
      | .error e => .error e
      | .ok args => .ok (idx :: args)

namespace UpdateFunctionTemplate

/-- Transform the template into a proper update function over indices. -/
def build : UpdateFunctionTemplate → (String → Option Nat) →
    (String → Option Nat) → Except String UpdateFunction
  | Variable name, variable_to_index, _ =>
    match variable_to_index name with
    | none => .error ("Cannot build update function. Unknown variable " ++ name)
    | some id => .ok (UpdateFunction.Variable id)
  | Parameter name inputs, variable_to_index, parameter_to_index =>
    match parameter_to_index name with
    | none => .error ("Cannot build update function. Unknown parameter " ++ name)
    | some id =>
      match resolveArgs variable_to_index inputs with
      | .error e => .error e
      | .ok args => .ok (UpdateFunction.Parameter id args)
  | Not inner, v, p =>
    match inner.build v p with
    | .error e => .error e
    | .ok f => .ok (UpdateFunction.Not f)
  | And a b, v, p =>
    match a.build v p with
    | .error e => .error e
    | .ok fa =>
      match b.build v p with
      | .error e => .error e
      | .ok fb => .ok (UpdateFunction.And fa fb)
  | Or a b, v, p =>
    match a.build v p with
    | .error e => .error e
    | .ok fa =>
      match b.build v p with
      | .error e => .error e
      | .ok fb => .ok (UpdateFunction.Or fa fb)
  | Xor a b, v, p =>
    match a.build v p with
    | .error e => .error e
    | .ok fa =>
      match b.build v p with
      | .error e => .error e
      | .ok fb => .ok (UpdateFunction.Xor fa fb)
  | Iff a b, v, p =>
    match a.build v p with
    | .error e => .error e
    | .ok fa =>
      match b.build v p with
      | .error e => .error e
      | .ok fb => .ok (UpdateFunction.Iff fa fb)
  | Imp a b, v, p =>
    match a.build v p with
    | .error e => .error e
    | .ok fa =>
      match b.build v p with
      | .error e => .error e
      | .ok fb => .ok (UpdateFunction.Imp fa fb)

end UpdateFunctionTemplate

/-- Body of the parameter-usage check: errs when the parameter name is a
declared variable or a previously declared parameter of different
cardinality. -/
def paramCheck (bn : BooleanNetwork) (var_name : String) (p_in_f : Parameter) :
    Option String :=
  if (bn.regulatory_graph.get_variable_id p_in_f.name).isSome then
    some ("Cannot add update function for " ++ var_name ++ ". " ++ p_in_f.name
      ++ " cannot be both a parameter and a variable.")
  else
    match bn.get_parameter_id p_in_f.name with
    | some id =>
      if (bn.get_parameter id).cardinality ≠ p_in_f.cardinality then
        some ("Cannot add update function for " ++ var_name ++ ". " ++ p_in_f.name
          ++ " appears with two different cardinalities.")
      else none
    | none => none

/-- First error of the parameter-usage check loop. -/
def firstParamError (bn : BooleanNetwork) (var_name : String)
    (params : List Parameter) : Option String :=
  params.findSome? (paramCheck bn var_name)

/-- Body of the regulation-constraint check: errs when the referenced
variable is unknown or does not regulate the target. -/
def varCheck (bn : BooleanNetwork) (var_name : String) (variable_index : Nat)
    (var : String) : Option String :=
  match bn.regulatory_graph.get_variable_id var with
  | none =>
    some ("Cannot add update function for " ++ var_name
      ++ ". Function contains unknown variable " ++ var ++ ".")
  | some regulator_id =>
    if (bn.regulatory_graph.get_regulation regulator_id variable_index).isNone then
      some ("Cannot add update function for " ++ var_name ++ ". Variable " ++ var
        ++ " does not regulate " ++ var_name ++ ".")
    else none

/-- First error of the regulation-constraint check loop. -/
def firstVariableError (bn : BooleanNetwork) (var_name : String)
    (variable_index : Nat) (vars : List String) : Option String :=
  vars.findSome? (varCheck bn var_name variable_index)

/-- Addition of the new parameters once everything is verified. -/
def addParams (bn : BooleanNetwork) (params : List Parameter) : BooleanNetwork :=
  params.foldl (fun bn p =>
    if (bn.get_parameter_id p.name).isSome then bn
    else { bn with parameters := bn.parameters ++ [p] }) bn

def BooleanNetwork.new (graph : RegulatoryGraph) : BooleanNetwork :=
  { regulatory_graph := graph
    parameters := []
    update_functions := List.replicate graph.num_vars none }

/-- BooleanNetwork.add_update_function: the returned pair is the mutated
network together with the Result of the source (the source mutates in
place; errors after the parameter-adding loop leave the added parameters
behind, which the pair makes observable). -/
def add_update_function (bn : BooleanNetwork) (var_name : String)
    (tmpl : UpdateFunctionTemplate) : BooleanNetwork × Except String Unit :=
  match bn.regulatory_graph.get_variable_id var_name with
  | none =>
    (bn, .error ("Cannot add update function. Unknown variable " ++ var_name ++ "."))
  | some variable_index =>
    if (bn.update_functions.getD variable_index none).isSome then
      (bn, .error ("Cannot add update function. Function for " ++ var_name
        ++ " already set."))
    else
      let tmpl := tmpl.swap_unary_parameters bn.regulatory_graph
      let parameters := tmpl.extract_parameters
      match firstParamError bn var_name parameters with
      | some e => (bn, .error e)
      | none =>
        match firstVariableError bn var_name variable_index tmpl.extract_variables with
        | some e => (bn, .error e)
        | none =>
          let bn2 := addParams bn parameters
          match tmpl.build bn2.regulatory_graph.get_variable_id bn2.get_parameter_id with
          | .error e => (bn2, .error e)
          | .ok f =>
            ({ bn2 with update_functions := bn2.update_functions.set variable_index (some f) },
              .ok ())

/-- Success test of a Result. -/
def exceptIsOk {ε α : Type} : Except ε α → Bool
  | .ok _ => true
  | .error _ => false

/-! ## Declarative characterization of the add_update_function checks. -/

/-- The parameter-usage error condition, stated declaratively. -/
def isParamClash (bn : BooleanNetwork) (p : Parameter) : Prop :=
  (bn.regulatory_graph.get_variable_id p.name).isSome = true
  ∨ ∃ id, bn.get_parameter_id p.name = some id
      ∧ (bn.get_parameter id).cardinality ≠ p.cardinality

/-- The regulation-constraint error condition, stated declaratively: the
referenced variable is unknown or is not a declared regulator of the
target. -/
def isMissingRegulation (bn : BooleanNetwork) (variable_index : Nat)
    (vn : String) : Prop :=
  bn.regulatory_graph.get_variable_id vn = none
  ∨ ∃ rid, bn.regulatory_graph.get_variable_id vn = some rid
      ∧ bn.regulatory_graph.get_regulation rid variable_index = none

theorem paramCheck_isSome_iff (bn : BooleanNetwork) (var_name : String)
    (p : Parameter) :
    (paramCheck bn var_name p).isSome = true ↔ isParamClash bn p := by
  unfold paramCheck isParamClash
  by_cases h1 : (bn.regulatory_graph.get_variable_id p.name).isSome = true
  · simp [h1]
  · cases hp : bn.get_parameter_id p.name with
    | none => simp [h1, hp]
    | some id =>
      by_cases hc : (bn.get_parameter id).cardinality ≠ p.cardinality
      · simp [h1, hp, hc]
      · simp [h1, hp, hc]

theorem varCheck_isSome_iff (bn : BooleanNetwork) (var_name : String)
    (variable_index : Nat) (vn : String) :
    (varCheck bn var_name variable_index vn).isSome = true ↔
      isMissingRegulation bn variable_index vn := by
  unfold varCheck isMissingRegulation
  cases hv : bn.regulatory_graph.get_variable_id vn with
  | none => simp [hv]
  | some rid =>
    cases hr : bn.regulatory_graph.get_regulation rid variable_index with
    | none => simp [hv, hr]
    | some r => simp [hv, hr]

theorem firstParamError_isSome_iff (bn : BooleanNetwork) (var_name : String)
    (params : List Parameter) :
    (firstParamError bn var_name params).isSome = true ↔
      ∃ p ∈ params, isParamClash bn p := by
  unfold firstParamError
  rw [List.findSome?_isSome_iff]
  constructor
  · rintro ⟨p, hp, hs⟩
    exact ⟨p, hp, (paramCheck_isSome_iff bn var_name p).mp hs⟩
  · rintro ⟨p, hp, hs⟩
    exact ⟨p, hp, (paramCheck_isSome_iff bn var_name p).mpr hs⟩

theorem firstVariableError_isSome_iff (bn : BooleanNetwork) (var_name : String)
    (variable_index : Nat) (vars : List String) :
    (firstVariableError bn var_name variable_index vars).isSome = true ↔
      ∃ vn ∈ vars, isMissingRegulation bn variable_index vn := by
  unfold firstVariableError
  rw [List.findSome?_isSome_iff]
  constructor
  · rintro ⟨vn, hv, hs⟩
    exact ⟨vn, hv, (varCheck_isSome_iff bn var_name variable_index vn).mp hs⟩
  · rintro ⟨vn, hv, hs⟩
    exact ⟨vn, hv, (varCheck_isSome_iff bn var_name variable_index vn).mpr hs⟩

theorem mem_insertName (l : List String) (s x : String) :
    x ∈ insertName l s ↔ x ∈ l ∨ x = s := by
  unfold insertName
  split
  · rename_i h
    constructor
    · exact Or.inl
    · rintro (hx | rfl)
      · exact hx
      · exact h
  · simp [List.mem_append]

theorem mem_unionNames (b : List String) :
    ∀ (a : List String) (x : String), x ∈ unionNames a b ↔ x ∈ a ∨ x ∈ b := by
  induction b with
  | nil => intro a x; simp [unionNames]
  | cons s rest ih =>
    intro a x
    show x ∈ unionNames (insertName a s) rest ↔ _
    rw [ih (insertName a s) x, mem_insertName]
    simp [List.mem_cons]
    tauto

theorem mem_insertParam (l : List Parameter) (p x : Parameter) :
    x ∈ insertParam l p ↔ x ∈ l ∨ x = p := by
  unfold insertParam
  split
  · rename_i h
    constructor
    · exact Or.inl
    · rintro (hx | rfl)
      · exact hx
      · exact h
  · simp [List.mem_append]

theorem mem_unionParams (b : List Parameter) :
    ∀ (a : List Parameter) (x : Parameter), x ∈ unionParams a b ↔ x ∈ a ∨ x ∈ b := by
  induction b with
  | nil => intro a x; simp [unionParams]
  | cons p rest ih =>
    intro a x
    show x ∈ unionParams (insertParam a p) rest ↔ _
    rw [ih (insertParam a p) x, mem_insertParam]
    simp [List.mem_cons]
    tauto

/-- Every variable left in a swapped template is a declared variable: the
swap replaces all others by zero-input parameters. -/
theorem swap_vars_declared (rg : RegulatoryGraph) :
    ∀ (t : UpdateFunctionTemplate) (name : String),
      name ∈ (t.swap_unary_parameters rg).extract_variables →
      (rg.get_variable_id name).isSome = true := by
  intro t
  induction t with
  | Parameter nm inputs => intro name h; simp [UpdateFunctionTemplate.swap_unary_parameters,
      UpdateFunctionTemplate.extract_variables] at h
  | Variable nm =>
    intro name h
    by_cases hd : (rg.get_variable_id nm).isSome = true
    · simp [UpdateFunctionTemplate.swap_unary_parameters, hd,
        UpdateFunctionTemplate.extract_variables] at h
      subst h
      exact hd
    · simp [UpdateFunctionTemplate.swap_unary_parameters, hd,
        UpdateFunctionTemplate.extract_variables] at h
  | Not inner ih => intro name h; exact ih name h
  | And a b iha ihb =>
    intro name h
    rcases (mem_unionNames _ _ _).mp h with h | h
    · exact iha name h
    · exact ihb name h
  | Or a b iha ihb =>
    intro name h
    rcases (mem_unionNames _ _ _).mp h with h | h
    · exact iha name h
    · exact ihb name h
  | Xor a b iha ihb =>
    intro name h
    rcases (mem_unionNames _ _ _).mp h with h | h
    · exact iha name h
    · exact ihb name h
  | Iff a b iha ihb =>
    intro name h
    rcases (mem_unionNames _ _ _).mp h with h | h
    · exact iha name h
    · exact ihb name h
  | Imp a b iha ihb =>
    intro name h
    rcases (mem_unionNames _ _ _).mp h with h | h
    · exact iha name h
    · exact ihb name h

theorem addParams_update_functions (ps : List Parameter) :
    ∀ bn : BooleanNetwork, (addParams bn ps).update_functions = bn.update_functions := by
  induction ps with
  | nil => intro bn; rfl
  | cons p ps ih =>
    intro bn
    show (addParams (if (bn.get_parameter_id p.name).isSome then bn
      else { bn with parameters := bn.parameters ++ [p] }) ps).update_functions = _
    rw [ih]
    split <;> rfl

theorem addParams_regulatory_graph (ps : List Parameter) :
    ∀ bn : BooleanNetwork, (addParams bn ps).regulatory_graph = bn.regulatory_graph := by
  induction ps with
  | nil => intro bn; rfl
  | cons p ps ih =>
    intro bn
    show (addParams (if (bn.get_parameter_id p.name).isSome then bn
      else { bn with parameters := bn.parameters ++ [p] }) ps).regulatory_graph = _
    rw [ih]
    split <;> rfl

theorem get_parameter_id_isSome_any (bn : BooleanNetwork) (name : String) :
    (bn.get_parameter_id name).isSome = bn.parameters.any (fun p => p.name == name) :=
  List.findIdx?_isSome

theorem addParams_preserves_param (ps : List Parameter) :
    ∀ (bn : BooleanNetwork) (name : String),
      (bn.get_parameter_id name).isSome = true →
      ((addParams bn ps).get_parameter_id name).isSome = true := by
  induction ps with
  | nil => intro bn name h; exact h
  | cons p ps ih =>
    intro bn name h
    show ((addParams (if (bn.get_parameter_id p.name).isSome then bn
      else { bn with parameters := bn.parameters ++ [p] }) ps).get_parameter_id name).isSome = true
    apply ih
    split
    · exact h
    · rw [get_parameter_id_isSome_any] at h ⊢
      show (bn.parameters ++ [p]).any (fun q => q.name == name) = true
      rw [List.any_append, h]
      rfl

theorem addParams_covers (ps : List Parameter) :
    ∀ (bn : BooleanNetwork) (q : Parameter), q ∈ ps →
      ((addParams bn ps).get_parameter_id q.name).isSome = true := by
  induction ps with
  | nil => intro bn q h; simp at h
  | cons p ps ih =>
    intro bn q hq
    show ((addParams (if (bn.get_parameter_id p.name).isSome then bn
      else { bn with parameters := bn.parameters ++ [p] }) ps).get_parameter_id q.name).isSome = true
    rcases List.mem_cons.mp hq with rfl | hmem
    · apply addParams_preserves_param
      split
      · rename_i h
        exact h
      · rw [get_parameter_id_isSome_any]
        show (bn.parameters ++ [q]).any (fun r => r.name == q.name) = true
        rw [List.any_append]
        simp
    · exact ih _ q hmem

theorem resolveArgs_isOk_iff (v : String → Option Nat) :
    ∀ l : List String,
      exceptIsOk (resolveArgs v l) = true ↔ ∀ i ∈ l, (v i).isSome = true := by
  intro l
  induction l with
  | nil => simp [resolveArgs, exceptIsOk]
  | cons i rest ih =>
    cases hv : v i with
    | none => simp [resolveArgs, hv, exceptIsOk]
    | some idx =>
      cases hr : resolveArgs v rest with
      | error e =>
        rw [hr] at ih
        simp only [resolveArgs, hv, hr, exceptIsOk, List.forall_mem_cons]
        simp only [exceptIsOk] at ih
        simp [hv, ← ih]
      | ok args =>
        rw [hr] at ih
        simp only [resolveArgs, hv, hr, exceptIsOk, List.forall_mem_cons]
        simp only [exceptIsOk] at ih
        simp [hv, ← ih]

/-- Characterization of the build step: when every remaining variable node
is declared and every used parameter is present (as the earlier checks and
the parameter-adding loop guarantee), build succeeds exactly when every
parameter argument is a declared variable. -/
theorem build_isOk_iff :
    ∀ (t : UpdateFunctionTemplate) (v p : String → Option Nat),
      (∀ name ∈ t.extract_variables, (v name).isSome = true) →
      (∀ q ∈ t.extract_parameters, (p q.name).isSome = true) →
      (exceptIsOk (t.build v p) = true ↔
        ∀ i ∈ t.paramInputNames, (v i).isSome = true) := by
  intro t
  induction t with
  | Parameter nm inputs =>
    intro v p hvars hparams
    have hp : (p nm).isSome = true := hparams { name := nm, cardinality := inputs.length }
      (by simp [UpdateFunctionTemplate.extract_parameters])
    cases hpn : p nm with
    | none => rw [hpn] at hp; simp at hp
    | some id =>
      have hres := resolveArgs_isOk_iff v inputs
      cases hra : resolveArgs v inputs with
      | error e =>
        rw [hra] at hres
        simp only [UpdateFunctionTemplate.build, hpn, hra,
          UpdateFunctionTemplate.paramInputNames, exceptIsOk]
        simp only [exceptIsOk] at hres
        exact hres
      | ok args =>
        rw [hra] at hres
        simp only [UpdateFunctionTemplate.build, hpn, hra,
          UpdateFunctionTemplate.paramInputNames, exceptIsOk]
        simp only [exceptIsOk] at hres
        exact hres
  | Variable nm =>
    intro v p hvars hparams
    have hv : (v nm).isSome = true := hvars nm
      (by simp [UpdateFunctionTemplate.extract_variables])
    cases hvn : v nm with
    | none => rw [hvn] at hv; simp at hv
    | some id =>
      simp [UpdateFunctionTemplate.build, hvn,
        UpdateFunctionTemplate.paramInputNames, exceptIsOk]
  | Not inner ih =>
    intro v p hvars hparams
    have H := ih v p hvars hparams
    cases hb : inner.build v p with
    | error e =>
      rw [hb] at H
      simp only [UpdateFunctionTemplate.build, hb,
        UpdateFunctionTemplate.paramInputNames, exceptIsOk]
      simp only [exceptIsOk] at H
      exact H
    | ok f =>
      rw [hb] at H
      simp only [UpdateFunctionTemplate.build, hb,
        UpdateFunctionTemplate.paramInputNames, exceptIsOk]
      simp only [exceptIsOk] at H
      exact H
  | And a b iha ihb =>
    intro v p hvars hparams
    have Ha := iha v p
      (fun name h => hvars name ((mem_unionNames _ _ _).mpr (Or.inl h)))
      (fun q h => hparams q ((mem_unionParams _ _ _).mpr (Or.inl h)))
    have Hb := ihb v p
      (fun name h => hvars name ((mem_unionNames _ _ _).mpr (Or.inr h)))
      (fun q h => hparams q ((mem_unionParams _ _ _).mpr (Or.inr h)))
    cases hba : a.build v p with
    | error e =>
      rw [hba] at Ha
      simp only [exceptIsOk] at Ha
      simp only [UpdateFunctionTemplate.build, hba,
        UpdateFunctionTemplate.paramInputNames, exceptIsOk]
      constructor
      · intro h; cases h
      · intro hall
        have hfa : ∀ i ∈ a.paramInputNames, (v i).isSome = true :=
          fun i hi => hall i (List.mem_append.mpr (Or.inl hi))
        cases Ha.mpr hfa
    | ok fa =>
      rw [hba] at Ha
      simp only [exceptIsOk] at Ha
      cases hbb : b.build v p with
      | error e =>
        rw [hbb] at Hb
        simp only [exceptIsOk] at Hb
        simp only [UpdateFunctionTemplate.build, hba, hbb,
          UpdateFunctionTemplate.paramInputNames, exceptIsOk]
        constructor
        · intro h; cases h
        · intro hall
          have hfb : ∀ i ∈ b.paramInputNames, (v i).isSome = true :=
            fun i hi => hall i (List.mem_append.mpr (Or.inr hi))
          cases Hb.mpr hfb
      | ok fb =>
        rw [hbb] at Hb
        simp only [exceptIsOk] at Hb
        simp only [UpdateFunctionTemplate.build, hba, hbb,
          UpdateFunctionTemplate.paramInputNames, exceptIsOk]
        constructor
        · intro _ i hi
          rcases List.mem_append.mp hi with hi | hi
          · exact Ha.mp trivial i hi
          · exact Hb.mp trivial i hi
        · intro _; trivial
  | Or a b iha ihb =>
    intro v p hvars hparams
    have Ha := iha v p
      (fun name h => hvars name ((mem_unionNames _ _ _).mpr (Or.inl h)))
      (fun q h => hparams q ((mem_unionParams _ _ _).mpr (Or.inl h)))
    have Hb := ihb v p
      (fun name h => hvars name ((mem_unionNames _ _ _).mpr (Or.inr h)))
      (fun q h => hparams q ((mem_unionParams _ _ _).mpr (Or.inr h)))
    cases hba : a.build v p with
    | error e =>
      rw [hba] at Ha
      simp only [exceptIsOk] at Ha
      simp only [UpdateFunctionTemplate.build, hba,
        UpdateFunctionTemplate.paramInputNames, exceptIsOk]
      constructor
      · intro h; cases h
      · intro hall
        have hfa : ∀ i ∈ a.paramInputNames, (v i).isSome = true :=
          fun i hi => hall i (List.mem_append.mpr (Or.inl hi))
        cases Ha.mpr hfa
    | ok fa =>
      rw [hba] at Ha
      simp only [exceptIsOk] at Ha
      cases hbb : b.build v p with
      | error e =>
        rw [hbb] at Hb
        simp only [exceptIsOk] at Hb
        simp only [UpdateFunctionTemplate.build, hba, hbb,
          UpdateFunctionTemplate.paramInputNames, exceptIsOk]
        constructor
        · intro h; cases h
        · intro hall
          have hfb : ∀ i ∈ b.paramInputNames, (v i).isSome = true :=
            fun i hi => hall i (List.mem_append.mpr (Or.inr hi))
          cases Hb.mpr hfb
      | ok fb =>
        rw [hbb] at Hb
        simp only [exceptIsOk] at Hb
        simp only [UpdateFunctionTemplate.build, hba, hbb,
          UpdateFunctionTemplate.paramInputNames, exceptIsOk]
        constructor
        · intro _ i hi
          rcases List.mem_append.mp hi with hi | hi
          · exact Ha.mp trivial i hi
          · exact Hb.mp trivial i hi
        · intro _; trivial
  | Xor a b iha ihb =>
    intro v p hvars hparams
    have Ha := iha v p
      (fun name h => hvars name ((mem_unionNames _ _ _).mpr (Or.inl h)))
      (fun q h => hparams q ((mem_unionParams _ _ _).mpr (Or.inl h)))
    have Hb := ihb v p
      (fun name h => hvars name ((mem_unionNames _ _ _).mpr (Or.inr h)))
      (fun q h => hparams q ((mem_unionParams _ _ _).mpr (Or.inr h)))
    cases hba : a.build v p with
    | error e =>
      rw [hba] at Ha
      simp only [exceptIsOk] at Ha
      simp only [UpdateFunctionTemplate.build, hba,
        UpdateFunctionTemplate.paramInputNames, exceptIsOk]
      constructor
      · intro h; cases h
      · intro hall
        have hfa : ∀ i ∈ a.paramInputNames, (v i).isSome = true :=
          fun i hi => hall i (List.mem_append.mpr (Or.inl hi))
        cases Ha.mpr hfa
    | ok fa =>
      rw [hba] at Ha
      simp only [exceptIsOk] at Ha
      cases hbb : b.build v p with
      | error e =>
        rw [hbb] at Hb
        simp only [exceptIsOk] at Hb
        simp only [UpdateFunctionTemplate.build, hba, hbb,
          UpdateFunctionTemplate.paramInputNames, exceptIsOk]
        constructor
        · intro h; cases h
        · intro hall
          have hfb : ∀ i ∈ b.paramInputNames, (v i).isSome = true :=
            fun i hi => hall i (List.mem_append.mpr (Or.inr hi))
          cases Hb.mpr hfb
      | ok fb =>
        rw [hbb] at Hb
        simp only [exceptIsOk] at Hb
        simp only [UpdateFunctionTemplate.build, hba, hbb,
          UpdateFunctionTemplate.paramInputNames, exceptIsOk]
        constructor
        · intro _ i hi
          rcases List.mem_append.mp hi with hi | hi
          · exact Ha.mp trivial i hi
          · exact Hb.mp trivial i hi
        · intro _; trivial
  | Iff a b iha ihb =>
    intro v p hvars hparams
    have Ha := iha v p
      (fun name h => hvars name ((mem_unionNames _ _ _).mpr (Or.inl h)))
      (fun q h => hparams q ((mem_unionParams _ _ _).mpr (Or.inl h)))
    have Hb := ihb v p
      (fun name h => hvars name ((mem_unionNames _ _ _).mpr (Or.inr h)))
      (fun q h => hparams q ((mem_unionParams _ _ _).mpr (Or.inr h)))
    cases hba : a.build v p with
    | error e =>
      rw [hba] at Ha
      simp only [exceptIsOk] at Ha
      simp only [UpdateFunctionTemplate.build, hba,
        UpdateFunctionTemplate.paramInputNames, exceptIsOk]
      constructor
      · intro h; cases h
      · intro hall
        have hfa : ∀ i ∈ a.paramInputNames, (v i).isSome = true :=
          fun i hi => hall i (List.mem_append.mpr (Or.inl hi))
        cases Ha.mpr hfa
    | ok fa =>
      rw [hba] at Ha
      simp only [exceptIsOk] at Ha
      cases hbb : b.build v p with
      | error e =>
        rw [hbb] at Hb
        simp only [exceptIsOk] at Hb
        simp only [UpdateFunctionTemplate.build, hba, hbb,
          UpdateFunctionTemplate.paramInputNames, exceptIsOk]
        constructor
        · intro h; cases h
        · intro hall
          have hfb : ∀ i ∈ b.paramInputNames, (v i).isSome = true :=
            fun i hi => hall i (List.mem_append.mpr (Or.inr hi))
          cases Hb.mpr hfb
      | ok fb =>
        rw [hbb] at Hb
        simp only [exceptIsOk] at Hb
        simp only [UpdateFunctionTemplate.build, hba, hbb,
          UpdateFunctionTemplate.paramInputNames, exceptIsOk]
        constructor
        · intro _ i hi
          rcases List.mem_append.mp hi with hi | hi
          · exact Ha.mp trivial i hi
          · exact Hb.mp trivial i hi
        · intro _; trivial
  | Imp a b iha ihb =>
    intro v p hvars hparams
    have Ha := iha v p
      (fun name h => hvars name ((mem_unionNames _ _ _).mpr (Or.inl h)))
      (fun q h => hparams q ((mem_unionParams _ _ _).mpr (Or.inl h)))
    have Hb := ihb v p
      (fun name h => hvars name ((mem_unionNames _ _ _).mpr (Or.inr h)))
      (fun q h => hparams q ((mem_unionParams _ _ _).mpr (Or.inr h)))
    cases hba : a.build v p with
    | error e =>
      rw [hba] at Ha
      simp only [exceptIsOk] at Ha
      simp only [UpdateFunctionTemplate.build, hba,
        UpdateFunctionTemplate.paramInputNames, exceptIsOk]
      constructor
      · intro h; cases h
      · intro hall
        have hfa : ∀ i ∈ a.paramInputNames, (v i).isSome = true :=
          fun i hi => hall i (List.mem_append.mpr (Or.inl hi))
        cases Ha.mpr hfa
    | ok fa =>
      rw [hba] at Ha
      simp only [exceptIsOk] at Ha
      cases hbb : b.build v p with
      | error e =>
        rw [hbb] at Hb
        simp only [exceptIsOk] at Hb
        simp only [UpdateFunctionTemplate.build, hba, hbb,
          UpdateFunctionTemplate.paramInputNames, exceptIsOk]
        constructor
        · intro h; cases h
        · intro hall
          have hfb : ∀ i ∈ b.paramInputNames, (v i).isSome = true :=
            fun i hi => hall i (List.mem_append.mpr (Or.inr hi))
          cases Hb.mpr hfb
      | ok fb =>
        rw [hbb] at Hb
        simp only [exceptIsOk] at Hb
        simp only [UpdateFunctionTemplate.build, hba, hbb,
          UpdateFunctionTemplate.paramInputNames, exceptIsOk]
        constructor
        · intro _ i hi
          rcases List.mem_append.mp hi with hi | hi
          · exact Ha.mp trivial i hi
          · exact Hb.mp trivial i hi
        · intro _; trivial

/-- Claim C10 (confirmed): whenever add_update_function returns an error,
the stored update functions are unchanged for every variable: the
assignment to update_functions happens only on the success path; the only
mutation some error paths leave behind (parameters added before a failing
build) does not touch update_functions. -/
theorem add_update_function_error_frame (bn : BooleanNetwork) (var_name : String)
    (tmpl : UpdateFunctionTemplate) (bn2 : BooleanNetwork) (e : String)
    (h : add_update_function bn var_name tmpl = (bn2, .error e)) (v : Nat) :
    bn2.get_update_function v = bn.get_update_function v := by
  unfold add_update_function at h
  cases hvid : bn.regulatory_graph.get_variable_id var_name with
  | none =>
    simp only [hvid] at h
    injection h with h1 h2
    subst h1
    rfl
  | some vidx =>
    simp only [hvid] at h
    by_cases hdup : (bn.update_functions.getD vidx none).isSome = true
    · rw [if_pos hdup] at h
      injection h with h1 h2
      subst h1
      rfl
    · rw [if_neg hdup] at h
      cases hpe : firstParamError bn var_name
          ((tmpl.swap_unary_parameters bn.regulatory_graph).extract_parameters) with
      | some e2 =>
        simp only [hpe] at h
        injection h with h1 h2
        subst h1
        rfl
      | none =>
        simp only [hpe] at h
        cases hve : firstVariableError bn var_name vidx
            ((tmpl.swap_unary_parameters bn.regulatory_graph).extract_variables) with
        | some e2 =>
          simp only [hve] at h
          injection h with h1 h2
          subst h1
          rfl
        | none =>
          simp only [hve] at h
          cases hb : (tmpl.swap_unary_parameters bn.regulatory_graph).build
              (addParams bn
                ((tmpl.swap_unary_parameters bn.regulatory_graph).extract_parameters)).regulatory_graph.get_variable_id
              (addParams bn
                ((tmpl.swap_unary_parameters bn.regulatory_graph).extract_parameters)).get_parameter_id with
          | error e2 =>
            simp only [hb] at h
            injection h with h1 h2
            subst h1
            show (addParams bn _).get_update_function v = _
            unfold BooleanNetwork.get_update_function
            rw [addParams_update_functions]
          | ok f =>
            simp only [hb] at h
            injection h with h1 h2
            cases h2

/-- Helper for rewriting the case split of an Option lookup. -/
theorem option_cond_iff {A : Type} (a : A) (X : A → Prop) :
    ((some a = none) ∨ ∃ b, some a = some b ∧ X b) ↔ X a := by simp

/-- Claim C9 as amended: add_update_function returns an error exactly when
the target variable is unknown, or its update function is already set, or a
parameter of the (swapped) function is named like a declared variable or
clashes in cardinality with an earlier declaration, or a variable node of
the function is not a declared regulator of the target, or a parameter
argument is not a declared variable (this last case errs only at the build
step, after the new parameters were added); in every other case the call
succeeds.  Unlike the original claim, variables appearing only as parameter
arguments are not checked against the regulators. -/
theorem add_update_function_error_characterization (bn : BooleanNetwork)
    (var_name : String) (tmpl : UpdateFunctionTemplate) :
    exceptIsOk (add_update_function bn var_name tmpl).2 = false ↔
      (bn.regulatory_graph.get_variable_id var_name = none
       ∨ ∃ vidx, bn.regulatory_graph.get_variable_id var_name = some vidx
          ∧ ((bn.update_functions.getD vidx none).isSome = true
             ∨ (∃ p ∈ (tmpl.swap_unary_parameters bn.regulatory_graph).extract_parameters,
                  isParamClash bn p)
             ∨ (∃ vn ∈ (tmpl.swap_unary_parameters bn.regulatory_graph).extract_variables,
                  isMissingRegulation bn vidx vn)
             ∨ (∃ i ∈ (tmpl.swap_unary_parameters bn.regulatory_graph).paramInputNames,
                  bn.regulatory_graph.get_variable_id i = none))) := by
  cases hvid : bn.regulatory_graph.get_variable_id var_name with
  | none =>
    simp [add_update_function, hvid, exceptIsOk]
  | some vidx =>
    rw [option_cond_iff]
    unfold add_update_function
    simp only [hvid]
    by_cases hdup : (bn.update_functions.getD vidx none).isSome = true
    · rw [if_pos hdup]
      exact ⟨fun _ => Or.inl hdup, fun _ => rfl⟩
    · rw [if_neg hdup]
      have hpeIff := firstParamError_isSome_iff bn var_name
        ((tmpl.swap_unary_parameters bn.regulatory_graph).extract_parameters)
      cases hpe : firstParamError bn var_name
          ((tmpl.swap_unary_parameters bn.regulatory_graph).extract_parameters) with
      | some e2 =>
        rw [hpe] at hpeIff
        have hclash : ∃ p ∈ (tmpl.swap_unary_parameters bn.regulatory_graph).extract_parameters,
            isParamClash bn p := hpeIff.mp (by simp)
        simp only [hpe]
        exact ⟨fun _ => Or.inr (Or.inl hclash), fun _ => rfl⟩
      | none =>
        rw [hpe] at hpeIff
        have hnoclash : ¬ ∃ p ∈ (tmpl.swap_unary_parameters bn.regulatory_graph).extract_parameters,
            isParamClash bn p := fun hc => absurd (hpeIff.mpr hc) (by simp)
        simp only [hpe]
        have hveIff := firstVariableError_isSome_iff bn var_name vidx
          ((tmpl.swap_unary_parameters bn.regulatory_graph).extract_variables)
        cases hve : firstVariableError bn var_name vidx
            ((tmpl.swap_unary_parameters bn.regulatory_graph).extract_variables) with
        | some e2 =>
          rw [hve] at hveIff
          have hreg : ∃ vn ∈ (tmpl.swap_unary_parameters bn.regulatory_graph).extract_variables,
              isMissingRegulation bn vidx vn := hveIff.mp (by simp)
          simp only [hve]
          exact ⟨fun _ => Or.inr (Or.inr (Or.inl hreg)), fun _ => rfl⟩
        | none =>
          rw [hve] at hveIff
          have hnoreg : ¬ ∃ vn ∈ (tmpl.swap_unary_parameters bn.regulatory_graph).extract_variables,
              isMissingRegulation bn vidx vn := fun hc => absurd (hveIff.mpr hc) (by simp)
          simp only [hve]
          have hrg : (addParams bn
              ((tmpl.swap_unary_parameters bn.regulatory_graph).extract_parameters)).regulatory_graph
              = bn.regulatory_graph := addParams_regulatory_graph _ bn
          have hvars : ∀ name ∈ (tmpl.swap_unary_parameters bn.regulatory_graph).extract_variables,
              ((addParams bn
                ((tmpl.swap_unary_parameters bn.regulatory_graph).extract_parameters)).regulatory_graph.get_variable_id name).isSome = true := by
            intro name hmem
            rw [hrg]
            exact swap_vars_declared bn.regulatory_graph tmpl name hmem
          have hparams : ∀ q ∈ (tmpl.swap_unary_parameters bn.regulatory_graph).extract_parameters,
              ((addParams bn
                ((tmpl.swap_unary_parameters bn.regulatory_graph).extract_parameters)).get_parameter_id q.name).isSome = true := by
            intro q hmem
            exact addParams_covers _ bn q hmem
          have hbuildIff := build_isOk_iff (tmpl.swap_unary_parameters bn.regulatory_graph)
            (addParams bn
              ((tmpl.swap_unary_parameters bn.regulatory_graph).extract_parameters)).regulatory_graph.get_variable_id
            (addParams bn
              ((tmpl.swap_unary_parameters bn.regulatory_graph).extract_parameters)).get_parameter_id
            hvars hparams
          cases hb : (tmpl.swap_unary_parameters bn.regulatory_graph).build
              (addParams bn
                ((tmpl.swap_unary_parameters bn.regulatory_graph).extract_parameters)).regulatory_graph.get_variable_id
              (addParams bn
                ((tmpl.swap_unary_parameters bn.regulatory_graph).extract_parameters)).get_parameter_id with
          | error e2 =>
            rw [hb] at hbuildIff
            have hmissing : ∃ i ∈ (tmpl.swap_unary_parameters bn.regulatory_graph).paramInputNames,
                bn.regulatory_graph.get_variable_id i = none := by
              by_contra hno
              push_neg at hno
              have hall : ∀ i ∈ (tmpl.swap_unary_parameters bn.regulatory_graph).paramInputNames,
                  ((addParams bn
                    ((tmpl.swap_unary_parameters bn.regulatory_graph).extract_parameters)).regulatory_graph.get_variable_id i).isSome = true := by
                intro i hi
                rw [hrg]
                cases hq : bn.regulatory_graph.get_variable_id i with
                | none => exact absurd hq (hno i hi)
                | some q => rfl
              exact absurd (hbuildIff.mpr hall) (by simp [exceptIsOk])
            simp only [hb]
            exact ⟨fun _ => Or.inr (Or.inr (Or.inr hmissing)), fun _ => rfl⟩
          | ok f =>
            rw [hb] at hbuildIff
            have hnomissing : ¬ ∃ i ∈ (tmpl.swap_unary_parameters bn.regulatory_graph).paramInputNames,
                bn.regulatory_graph.get_variable_id i = none := by
              rintro ⟨i, hi, hnone⟩
              have hsome := hbuildIff.mp (by simp [exceptIsOk]) i hi
              rw [hrg, hnone] at hsome
              cases hsome
            simp only [hb]
            constructor
            · intro hfalse
              exact Bool.noConfusion (show true = false from hfalse)
            · rintro (h | h | h | h)
              · exact absurd h hdup
              · exact absurd h hnoclash
              · exact absurd h hnoreg
              · exact absurd h hnomissing

/-- The regulatory graph a -> b over variables a, b used for the builder
claims. -/
def rgC9 : RegulatoryGraph :=
  { vars := ["a", "b"]
    regulations :=
      [{ source := 0, target := 1, observable := true
         effect := some Effect.ACTIVATION }] }

def bnC9 : BooleanNetwork := BooleanNetwork.new rgC9

/-- Claim C9 counterexample: on the fresh network over a -> b, adding the
update function q(a) for variable a succeeds even though the function
references the variable a, which is not a declared regulator of a: the
regulator check of the source only inspects direct variable nodes, never
parameter arguments. -/
theorem add_update_function_accepts_non_regulator_argument :
    (add_update_function bnC9 "a" (UpdateFunctionTemplate.Parameter "q" ["a"])).2
      = Except.ok ()
    ∧ rgC9.get_variable_id "a" = some 0
    ∧ rgC9.get_regulation 0 0 = none
    ∧ bnC9.get_update_function 0 = none := by
  refine ⟨rfl, rfl, rfl, rfl⟩

/-- Witness of claim C10: failing the build step (unknown parameter
argument zzz) errs after the parameter q was added, yet every stored
update function is unchanged. -/
theorem add_update_function_error_frame_witness :
    add_update_function bnC9 "a" (UpdateFunctionTemplate.Parameter "q" ["zzz"]) =
      ((add_update_function bnC9 "a" (UpdateFunctionTemplate.Parameter "q" ["zzz"])).1,
        Except.error "Cannot build update function. Unknown variable zzz")
    ∧ (add_update_function bnC9 "a"
        (UpdateFunctionTemplate.Parameter "q" ["zzz"])).1.get_update_function 0
      = bnC9.get_update_function 0 :=
  ⟨by rfl,
   add_update_function_error_frame bnC9 "a" (UpdateFunctionTemplate.Parameter "q" ["zzz"])
     _ _ (by rfl) 0⟩
